import Mathlib

/-!
Verification of the card tokenization engine (Tychee monorepo).

The development shallowly embeds the TypeScript source:

* the cipher wrapper, card tokenizer, Luhn validator and network
  detector of the crypto module (class RingCompatibleCrypto and
  class CardTokenizer);
* the SDK engine (class TycheeSDK): storeCard, retrieveCard,
  revokeCard, key derivation and the capability checks.

Byte sequences are lists of naturals.  External runtime primitives
that are not part of the repository (the AES-256-GCM core of the
node crypto library, SHA-256, Date arithmetic, the wallet callbacks
and the Horizon network) are passed in as explicit parameters or as
an environment record; the repository code that wraps them (wire
format, offsets, checks, control flow, error mapping) is translated
faithfully.  Randomness (the fresh IV of each encryption) is an
explicit input.
-/

/-- Model of byte sequences (node Buffer contents). -/
abbrev Bytes := List Nat

/-- Resolution of one JavaScript Buffer.slice index against a length:
a negative index counts from the end, and the result is clamped to
the valid range. -/
def jsStart (n : Nat) (i : Int) : Nat :=
  if i < 0 then n - min n i.natAbs else min i.toNat n

/-- JavaScript Buffer.slice / Array.slice semantics: the region between
the two resolved indices (empty when they cross). -/
def jsSlice (l : Bytes) (s e : Int) : Bytes :=
  (l.drop (jsStart l.length s)).take (jsStart l.length e - jsStart l.length s)

/-- UTF-8 encoding of one code point (node Buffer.from with utf-8). -/
def utf8Bytes (c : Char) : List Nat :=
  let n := c.toNat
  if n < 128 then [n]
  else if n < 2048 then [192 + n / 64, 128 + n % 64]
  else if n < 65536 then [224 + n / 4096, 128 + (n / 64) % 64, 128 + n % 64]
  else [240 + n / 262144, 128 + (n / 4096) % 64, 128 + (n / 64) % 64, 128 + n % 64]

/-- The UTF-8 bytes of a string (node Buffer.from(s, utf-8)). -/
def strBytes (s : String) : Bytes :=
  (s.data.map utf8Bytes).flatten

namespace RingCompatibleCrypto

/-- KEY_LENGTH = 32 in the source. -/
def KEY_LENGTH : Nat := 32

/-- IV_LENGTH = 12 in the source. -/
def IV_LENGTH : Nat := 12

/-- AUTH_TAG_LENGTH = 16 in the source. -/
def AUTH_TAG_LENGTH : Nat := 16

/-- RingCompatibleCrypto.encrypt.  The AES-256-GCM core of the node
crypto library is the parameter aeadEnc (key, iv and plaintext to
ciphertext and auth tag); the freshly drawn random IV is the explicit
parameter iv.  The source checks the key length, encrypts, and returns
the concatenation IV plus ciphertext plus auth tag. -/
def encrypt (aeadEnc : Bytes → Bytes → Bytes → Bytes × Bytes)
    (iv : Bytes) (data key : Bytes) : Except String Bytes :=
  if key.length ≠ KEY_LENGTH then
    Except.error "Key must be 256 bits (32 bytes)"
  else
    let encrypted := (aeadEnc key iv data).1
    let authTag := (aeadEnc key iv data).2
    Except.ok (iv ++ encrypted ++ authTag)

/-- RingCompatibleCrypto.decrypt.  The AES-256-GCM decryption core is
the parameter aeadDec (key, iv, ciphertext and tag to the plaintext,
or none when the tag does not authenticate).  The source checks the
key length and splits the payload with Buffer.slice: the first 12
bytes are the IV, the last 16 bytes are the auth tag, the middle is
the ciphertext. -/
def decrypt (aeadDec : Bytes → Bytes → Bytes → Bytes → Option Bytes)
    (encryptedData key : Bytes) : Except String Bytes :=
  if key.length ≠ KEY_LENGTH then
    Except.error "Key must be 256 bits (32 bytes)"
  else
    let iv := jsSlice encryptedData 0 12
    let authTag := jsSlice encryptedData (-16) encryptedData.length
    let ciphertext := jsSlice encryptedData 12 (-16)
    match aeadDec key iv ciphertext authTag with
    | some plain => Except.ok plain
    | none => Except.error "Unsupported state or unable to authenticate data"

/-- RingCompatibleCrypto.hash: SHA-256 of the input.  The SHA-256 core
of the node crypto library is the parameter sha256. -/
def hash (sha256 : Bytes → Bytes) (data : Bytes) : Bytes :=
  sha256 data

/-- RingCompatibleCrypto.deriveUserKey: the encryption key is the
SHA-256 digest of the raw secret key string. -/
def deriveUserKey (sha256 : Bytes → Bytes) (secretKey : String) : Bytes :=
  sha256 (strBytes secretKey)

end RingCompatibleCrypto

/-- The three pieces a payload produced by encrypt is split into by
decrypt: slicing off the first 12 bytes recovers the IV. -/
theorem jsSlice_front (iv ct tag : Bytes) (hiv : iv.length = 12)
    (htag : tag.length = 16) : jsSlice (iv ++ ct ++ tag) 0 12 = iv := by
  have hn : (iv ++ ct ++ tag).length = 28 + ct.length := by
    simp [hiv, htag]; omega
  unfold jsSlice
  rw [hn]
  have h0 : jsStart (28 + ct.length) 0 = 0 := by
    unfold jsStart; rw [if_neg (by norm_num)]; simp
  have h12 : jsStart (28 + ct.length) 12 = 12 := by
    unfold jsStart; rw [if_neg (by norm_num)]; simp; omega
  rw [h0, h12]
  simp only [List.drop_zero, Nat.sub_zero]
  rw [List.append_assoc]
  exact List.take_left' hiv

/-- Slicing the last 16 bytes recovers the auth tag. -/
theorem jsSlice_back (iv ct tag : Bytes) (hiv : iv.length = 12)
    (htag : tag.length = 16) :
    jsSlice (iv ++ ct ++ tag) (-16) (iv ++ ct ++ tag).length = tag := by
  have hn : (iv ++ ct ++ tag).length = 28 + ct.length := by
    simp [hiv, htag]; omega
  unfold jsSlice
  rw [hn]
  have hs : jsStart (28 + ct.length) (-16) = 12 + ct.length := by
    unfold jsStart; rw [if_pos (by norm_num)]; simp; omega
  have he : jsStart (28 + ct.length) ((28 + ct.length : Nat) : Int) = 28 + ct.length := by
    unfold jsStart; rw [if_neg (by omega)]; simp; omega
  rw [hs, he]
  have h1 : 12 + ct.length = (iv ++ ct).length := by simp [hiv]
  rw [h1, List.drop_left]
  exact List.take_of_length_le (by omega)

/-- Slicing between offset 12 and the last 16 bytes recovers the
ciphertext. -/
theorem jsSlice_mid (iv ct tag : Bytes) (hiv : iv.length = 12)
    (htag : tag.length = 16) :
    jsSlice (iv ++ ct ++ tag) 12 (-16) = ct := by
  have hn : (iv ++ ct ++ tag).length = 28 + ct.length := by
    simp [hiv, htag]; omega
  unfold jsSlice
  rw [hn]
  have hs : jsStart (28 + ct.length) 12 = 12 := by
    unfold jsStart; rw [if_neg (by norm_num)]; simp; omega
  have he : jsStart (28 + ct.length) (-16) = 12 + ct.length := by
    unfold jsStart; rw [if_pos (by norm_num)]; simp; omega
  rw [hs, he]
  rw [List.append_assoc, List.drop_left' hiv]
  have h2 : 12 + ct.length - 12 = ct.length := by omega
  rw [h2]
  exact List.take_left ct tag

/-- The card data record of the source (types.ts): all fields are
strings; network is one of visa, mastercard, rupay, amex, unknown,
or empty when unset. -/
structure CardData where
  pan : String
  cvv : String
  expiryMonth : String
  expiryYear : String
  cardholderName : String
  network : String
deriving DecidableEq

/-- One lowercase hexadecimal digit. -/
def hexDigitChar (n : Nat) : Char :=
  if n < 10 then Char.ofNat (48 + n) else Char.ofNat (87 + n)

/-- Four lowercase hexadecimal digits (for JSON \u escapes). -/
def hex4 (n : Nat) : String :=
  String.mk [hexDigitChar (n / 4096 % 16), hexDigitChar (n / 256 % 16),
    hexDigitChar (n / 16 % 16), hexDigitChar (n % 16)]

/-- JSON.stringify escaping of one character inside a string literal. -/
def jsonEscapeChar (c : Char) : String :=
  if c = '"' then "\\\""
  else if c = '\\' then "\\\\"
  else if c.toNat = 8 then "\\b"
  else if c.toNat = 9 then "\\t"
  else if c.toNat = 10 then "\\n"
  else if c.toNat = 12 then "\\f"
  else if c.toNat = 13 then "\\r"
  else if c.toNat < 32 then "\\u" ++ hex4 c.toNat
  else String.singleton c

/-- A JSON string literal for s, as JSON.stringify renders it. -/
def jsonString (s : String) : String :=
  "\"" ++ String.join (s.data.map jsonEscapeChar) ++ "\""

/-- The plaintext serialization JSON.stringify produces in
CardTokenizer.encryptCard: the six card fields in source order. -/
def serializeCard (c : CardData) : String :=
  "\x7b\"pan\":" ++ jsonString c.pan ++
  ",\"cvv\":" ++ jsonString c.cvv ++
  ",\"expiryMonth\":" ++ jsonString c.expiryMonth ++
  ",\"expiryYear\":" ++ jsonString c.expiryYear ++
  ",\"cardholderName\":" ++ jsonString c.cardholderName ++
  ",\"network\":" ++ jsonString c.network ++ "\x7d"

/-- JavaScript String.slice(-4): the last four characters (the whole
string when it is shorter). -/
def jsLast4 (s : String) : String :=
  String.mk (s.data.drop (s.data.length - 4))

/-- Lowercase hex rendering of a byte sequence (Buffer.toString hex). -/
def bytesToHex (b : Bytes) : String :=
  String.mk ((b.map (fun x => [hexDigitChar (x / 16 % 16), hexDigitChar (x % 16)])).flatten)

namespace CardTokenizer

/-- CardTokenizer.encryptCard: serialize the card to JSON, encrypt the
serialization under the session key with a fresh IV, hash the
plaintext serialization for indexing, and take the last four digits
of the PAN. -/
def encryptCard (sha256 : Bytes → Bytes)
    (aeadEnc : Bytes → Bytes → Bytes → Bytes × Bytes)
    (iv : Bytes) (cardData : CardData) (encryptionKey : Bytes) :
    Except String (Bytes × Bytes × String) :=
  let plaintextBuffer := strBytes (serializeCard cardData)
  match RingCompatibleCrypto.encrypt aeadEnc iv plaintextBuffer encryptionKey with
  | Except.error e => Except.error e
  | Except.ok encryptedPayload =>
      Except.ok (encryptedPayload,
        RingCompatibleCrypto.hash sha256 plaintextBuffer,
        jsLast4 cardData.pan)

end CardTokenizer

/-- C1.  For every plaintext and every 32-byte key, with a fresh
12-byte IV, decrypting the result of encryption with the same key
returns the original plaintext.  The AES-GCM core is any pair of
functions satisfying the authenticated-encryption contract of the
node crypto library (decryption inverts encryption and auth tags are
16 bytes); encrypt lays the payload out as IV(12), ciphertext,
tag(16), and decrypt splits it at those offsets. -/
theorem encrypt_decrypt_roundtrip
    (aeadEnc : Bytes → Bytes → Bytes → Bytes × Bytes)
    (aeadDec : Bytes → Bytes → Bytes → Bytes → Option Bytes)
    (hinv : ∀ k iv p, aeadDec k iv (aeadEnc k iv p).1 (aeadEnc k iv p).2 = some p)
    (htag : ∀ k iv p, (aeadEnc k iv p).2.length = 16)
    (plaintext key iv : Bytes)
    (hkey : key.length = 32) (hiv : iv.length = 12) :
    (RingCompatibleCrypto.encrypt aeadEnc iv plaintext key).bind
      (fun payload => RingCompatibleCrypto.decrypt aeadDec payload key)
      = Except.ok plaintext := by
  unfold RingCompatibleCrypto.encrypt RingCompatibleCrypto.decrypt
  rw [if_neg (by simp [RingCompatibleCrypto.KEY_LENGTH, hkey])]
  simp only [Except.bind]
  rw [if_neg (by simp [RingCompatibleCrypto.KEY_LENGTH, hkey])]
  rw [jsSlice_front iv _ _ hiv (htag key iv plaintext),
    jsSlice_back iv _ _ hiv (htag key iv plaintext),
    jsSlice_mid iv _ _ hiv (htag key iv plaintext)]
  rw [hinv key iv plaintext]

/-- Witness for C1 at a concrete instance: the identity cipher with a
constant 16-byte tag satisfies the AEAD contract, and the round trip
holds for a concrete plaintext, key and IV. -/
theorem encrypt_decrypt_roundtrip_witness :
    (RingCompatibleCrypto.encrypt (fun _ _ p => (p, List.replicate 16 0))
        (List.replicate 12 7) [1, 2, 3] (List.replicate 32 0)).bind
      (fun payload =>
        RingCompatibleCrypto.decrypt
          (fun _ _ c t => if t = List.replicate 16 0 then some c else none)
          payload (List.replicate 32 0))
      = Except.ok [1, 2, 3] :=
  encrypt_decrypt_roundtrip
    (fun _ _ p => (p, List.replicate 16 0))
    (fun _ _ c t => if t = List.replicate 16 0 then some c else none)
    (fun _ _ _ => by simp)
    (fun _ _ _ => by simp)
    [1, 2, 3] (List.replicate 32 0) (List.replicate 12 7)
    (by simp) (by simp)

/-- Two payloads beginning with distinct 12-byte IVs are distinct. -/
theorem payload_ne_of_iv_ne (iv1 iv2 ct1 ct2 tag1 tag2 : Bytes)
    (h1 : iv1.length = 12) (h2 : iv2.length = 12) (hne : iv1 ≠ iv2) :
    iv1 ++ ct1 ++ tag1 ≠ iv2 ++ ct2 ++ tag2 := by
  intro h
  apply hne
  have := congrArg (List.take 12) h
  rwa [List.append_assoc, List.append_assoc, List.take_left' h1,
    List.take_left' h2] at this

/-- C2.  Encrypting the same CardData twice under the same 32-byte key
with two fresh IVs yields the same tokenHash both times -- the hash of
the plaintext JSON serialization, independent of the IV -- while the
two encrypted payloads differ because each encryption uses its own
random 12-byte IV. -/
theorem tokenHash_stable_fresh_iv
    (sha256 : Bytes → Bytes)
    (aeadEnc : Bytes → Bytes → Bytes → Bytes × Bytes)
    (card : CardData) (key iv1 iv2 : Bytes)
    (hkey : key.length = 32)
    (h1 : iv1.length = 12) (h2 : iv2.length = 12) (hne : iv1 ≠ iv2) :
    CardTokenizer.encryptCard sha256 aeadEnc iv1 card key
      = Except.ok (iv1 ++ (aeadEnc key iv1 (strBytes (serializeCard card))).1
            ++ (aeadEnc key iv1 (strBytes (serializeCard card))).2,
          RingCompatibleCrypto.hash sha256 (strBytes (serializeCard card)),
          jsLast4 card.pan) ∧
    CardTokenizer.encryptCard sha256 aeadEnc iv2 card key
      = Except.ok (iv2 ++ (aeadEnc key iv2 (strBytes (serializeCard card))).1
            ++ (aeadEnc key iv2 (strBytes (serializeCard card))).2,
          RingCompatibleCrypto.hash sha256 (strBytes (serializeCard card)),
          jsLast4 card.pan) ∧
    iv1 ++ (aeadEnc key iv1 (strBytes (serializeCard card))).1
        ++ (aeadEnc key iv1 (strBytes (serializeCard card))).2
      ≠ iv2 ++ (aeadEnc key iv2 (strBytes (serializeCard card))).1
        ++ (aeadEnc key iv2 (strBytes (serializeCard card))).2 := by
  refine ⟨?_, ?_, ?_⟩
  · simp [CardTokenizer.encryptCard, RingCompatibleCrypto.encrypt,
      RingCompatibleCrypto.KEY_LENGTH, RingCompatibleCrypto.hash, hkey]
  · simp [CardTokenizer.encryptCard, RingCompatibleCrypto.encrypt,
      RingCompatibleCrypto.KEY_LENGTH, RingCompatibleCrypto.hash, hkey]
  · exact payload_ne_of_iv_ne _ _ _ _ _ _ h1 h2 hne

/-- Witness for C2 at a concrete card, key, cipher and pair of IVs. -/
theorem tokenHash_stable_fresh_iv_witness :
    CardTokenizer.encryptCard (fun _ => List.replicate 32 0)
        (fun _ _ p => (p, List.replicate 16 0)) (List.replicate 12 0)
        ⟨"4242424242424242", "123", "12", "30", "A B", "visa"⟩
        (List.replicate 32 5)
      = Except.ok (List.replicate 12 0
            ++ (strBytes (serializeCard ⟨"4242424242424242", "123", "12", "30", "A B", "visa"⟩))
            ++ List.replicate 16 0,
          List.replicate 32 0, "4242") ∧
    List.replicate 12 0
        ++ (strBytes (serializeCard ⟨"4242424242424242", "123", "12", "30", "A B", "visa"⟩))
        ++ List.replicate 16 0
      ≠ List.replicate 12 1
        ++ (strBytes (serializeCard ⟨"4242424242424242", "123", "12", "30", "A B", "visa"⟩))
        ++ List.replicate 16 0 := by
  have h := tokenHash_stable_fresh_iv (fun _ => List.replicate 32 0)
    (fun _ _ p => (p, List.replicate 16 0))
    ⟨"4242424242424242", "123", "12", "30", "A B", "visa"⟩
    (List.replicate 32 5) (List.replicate 12 0) (List.replicate 12 1)
    (by simp) (by simp) (by simp) (by decide)
  exact ⟨h.1, h.2.2⟩

/-- The character class the source strips from a PAN: the regex
[\s-], i.e. JavaScript whitespace or a dash. -/
def isJsSpace (c : Char) : Bool :=
  c.toNat = 32 || c.toNat = 9 || c.toNat = 10 || c.toNat = 11 || c.toNat = 12 ||
  c.toNat = 13 || c.toNat = 160 || c.toNat = 5760 ||
  (8192 ≤ c.toNat && c.toNat ≤ 8202) || c.toNat = 8232 || c.toNat = 8233 ||
  c.toNat = 8239 || c.toNat = 8287 || c.toNat = 12288 || c.toNat = 65279

/-- pan.replace of the source: drop every whitespace or dash. -/
def cleanPan (s : String) : List Char :=
  s.data.filter (fun c => !(isJsSpace c || c == '-'))

/-- parseInt on a single digit character. -/
def digitVal (c : Char) : Nat := c.toNat - 48

/-- The Luhn loop of CardTokenizer.validateCardNumber, running over
the digits from the rightmost (the input list is the reversed digit
sequence); isEv starts false and toggles each step; a digit at an even
position is doubled, minus nine when the double exceeds nine. -/
def luhnGo : List Nat → Bool → Nat → Nat
  | [], _, sum => sum
  | d :: rest, isEv, sum =>
      let dd := if isEv then (if d * 2 > 9 then d * 2 - 9 else d * 2) else d
      luhnGo rest (!isEv) (sum + dd)

namespace CardTokenizer

/-- CardTokenizer.validateCardNumber: strip whitespace and dashes,
require only digits (the anchored digit regex fails when the cleaned
string is empty or has a non-digit), require length 13 to 19, then
accept iff the Luhn sum is divisible by ten. -/
def validateCardNumber (pan : String) : Bool :=
  let cleaned := cleanPan pan
  if cleaned.isEmpty = true ∨ ¬ cleaned.all Char.isDigit = true then false
  else if cleaned.length < 13 ∨ cleaned.length > 19 then false
  else luhnGo ((cleaned.map digitVal).reverse) false 0 % 10 == 0

end CardTokenizer

/-- The doubling adjustment of the Luhn checksum, as the claim words
it: double the digit and subtract nine when the result exceeds nine. -/
def luhnDouble (d : Nat) : Nat := if d * 2 > 9 then d * 2 - 9 else d * 2

/-- The Luhn checksum as the claim words it: enumerate the digits from
the rightmost (index zero), double the digits at odd indices (every
second digit counted from the rightmost) with the subtract-nine
adjustment, and sum. -/
def luhnSpecSum (digits : List Nat) : Nat :=
  ((digits.reverse.enum).map (fun p => if p.1 % 2 = 1 then luhnDouble p.2 else p.2)).sum

/-- The source's Luhn loop computes the enumerated sum: the Boolean
parity flag after n steps is the parity of n. -/
theorem luhnGo_enumFrom (l : List Nat) (n s : Nat) :
    luhnGo l (decide (n % 2 = 1)) s
      = s + ((l.enumFrom n).map
          (fun p => if p.1 % 2 = 1 then luhnDouble p.2 else p.2)).sum := by
  induction l generalizing n s with
  | nil => simp [luhnGo]
  | cons d rest ih =>
    have hpar : (!decide (n % 2 = 1)) = decide ((n + 1) % 2 = 1) := by
      have h : ((n + 1) % 2 = 1) ↔ ¬ (n % 2 = 1) := by omega
      rw [decide_eq_decide.mpr h, decide_not]
    simp only [luhnGo, List.enumFrom, List.map_cons, List.sum_cons]
    rw [hpar, ih (n + 1)]
    by_cases h : n % 2 = 1
    · simp [h, luhnDouble]
      omega
    · simp [h]
      omega

/-- C3.  validateCardNumber accepts exactly the inputs whose cleaned
form (whitespace and dashes stripped) is all digits, has length 13 to
19, and passes the Luhn checksum: doubling every second digit from the
rightmost, subtracting nine from doubles above nine, and summing gives
a multiple of ten.  Concrete checks: a valid Visa test PAN with spaces
and dashes is accepted, and the same PAN with its last digit changed
is rejected. -/
theorem validateCardNumber_spec :
    (∀ pan : String,
      CardTokenizer.validateCardNumber pan = true ↔
        ((cleanPan pan).all Char.isDigit = true ∧
         13 ≤ (cleanPan pan).length ∧ (cleanPan pan).length ≤ 19 ∧
         luhnSpecSum ((cleanPan pan).map digitVal) % 10 = 0)) ∧
    CardTokenizer.validateCardNumber "4242 4242-4242 4242" = true ∧
    CardTokenizer.validateCardNumber "4242424242424243" = false := by
  refine ⟨?_, by decide, by decide⟩
  intro pan
  have hluhn : luhnGo (((cleanPan pan).map digitVal).reverse) false 0
      = luhnSpecSum ((cleanPan pan).map digitVal) := by
    have h0 : (false : Bool) = decide ((0 : Nat) % 2 = 1) := by decide
    rw [h0, luhnGo_enumFrom]
    simp [luhnSpecSum, List.enum]
  simp only [CardTokenizer.validateCardNumber]
  rw [hluhn]
  by_cases h1 : (cleanPan pan).isEmpty = true ∨ ¬ (cleanPan pan).all Char.isDigit = true
  · rw [if_pos h1]
    constructor
    · intro h; exact absurd h (by simp)
    · rintro ⟨hd, h13, -, -⟩
      exfalso
      rcases h1 with he | hna
      · have : (cleanPan pan).length = 0 := by
          rw [List.isEmpty_iff] at he; simp [he]
        omega
      · exact hna hd
  · rw [if_neg h1]
    push_neg at h1
    by_cases h2 : (cleanPan pan).length < 13 ∨ (cleanPan pan).length > 19
    · rw [if_pos h2]
      constructor
      · intro h; exact absurd h (by simp)
      · rintro ⟨-, h13, h19, -⟩; omega
    · rw [if_neg h2]
      push_neg at h2
      simp only [beq_iff_eq]
      constructor
      · intro h
        exact ⟨h1.2, by omega, by omega, h⟩
      · rintro ⟨-, -, -, h⟩; exact h

/-- Character equality is code point equality. -/
theorem char_eq_iff (c d : Char) : c = d ↔ c.toNat = d.toNat :=
  ⟨fun h => h ▸ rfl, fun h => Char.ext (UInt32.ext h)⟩

/-- Bounded character range test (a regex character class [lo-hi]). -/
def charBetween (lo c hi : Char) : Bool := decide (lo ≤ c ∧ c ≤ hi)

/-- charBetween in terms of code points. -/
theorem charBetween_iff (lo c hi : Char) :
    charBetween lo c hi = true ↔ lo.toNat ≤ c.toNat ∧ c.toNat ≤ hi.toNat := by
  unfold charBetween
  rw [decide_eq_true_eq]
  exact Iff.rfl

/-- isDigit in terms of code points. -/
theorem char_isDigit_iff (c : Char) :
    c.isDigit = true ↔ 48 ≤ c.toNat ∧ c.toNat ≤ 57 := by
  simp only [Char.isDigit, Bool.and_eq_true, decide_eq_true_eq]
  exact Iff.rfl

/-- The regex ^4 of the source: the cleaned PAN starts with 4. -/
def reVisa : List Char → Bool
  | c0 :: _ => c0 == '4'
  | [] => false

/-- The regex ^5[1-5] of the source. -/
def reMc51 : List Char → Bool
  | c0 :: c1 :: _ => c0 == '5' && charBetween '1' c1 '5'
  | _ => false

/-- The regex ^2(22[1-9]|2[3-9]\d|[3-6]\d\d|7[01]\d|720) of the
source: the extended Mastercard two-series range. -/
def reMc2 : List Char → Bool
  | c0 :: c1 :: c2 :: c3 :: _ =>
      c0 == '2' &&
      ((c1 == '2' && c2 == '2' && charBetween '1' c3 '9') ||
       (c1 == '2' && charBetween '3' c2 '9' && c3.isDigit) ||
       (charBetween '3' c1 '6' && c2.isDigit && c3.isDigit) ||
       (c1 == '7' && charBetween '0' c2 '1' && c3.isDigit) ||
       (c1 == '7' && c2 == '2' && c3 == '0'))
  | _ => false

/-- A literal alternative of a regex anchored at the start: the
pattern characters lead the input. -/
def leadsWith : List Char → List Char → Bool
  | [], _ => true
  | _ :: _, [] => false
  | a :: ps, b :: ls => a == b && leadsWith ps ls

/-- The regex ^(60|6521|6522) of the source. -/
def reRupay (l : List Char) : Bool :=
  leadsWith ['6', '0'] l || leadsWith ['6', '5', '2', '1'] l ||
    leadsWith ['6', '5', '2', '2'] l

/-- The regex ^3[47] of the source. -/
def reAmex : List Char → Bool
  | c0 :: c1 :: _ => c0 == '3' && (c1 == '4' || c1 == '7')
  | _ => false

/-- The prefix-test cascade of CardTokenizer.detectCardNetwork on the
cleaned PAN; first match wins. -/
def detectGo (cleaned : List Char) : String :=
  if reVisa cleaned then "visa"
  else if reMc51 cleaned || reMc2 cleaned then "mastercard"
  else if reRupay cleaned then "rupay"
  else if reAmex cleaned then "amex"
  else "unknown"

namespace CardTokenizer

/-- CardTokenizer.detectCardNetwork: strip whitespace and dashes, then
classify by prefix. -/
def detectCardNetwork (pan : String) : String :=
  detectGo (cleanPan pan)

end CardTokenizer

/-- The numeric value of the first k characters when they are all
digits, none otherwise. -/
def firstDigits (k : Nat) (l : List Char) : Option Nat :=
  if (l.take k).length = k ∧ (l.take k).all Char.isDigit = true then
    some ((l.take k).foldl (fun a c => a * 10 + digitVal c) 0)
  else none

/-- A numeric prefix value lies in a closed range. -/
def numBetween (o : Option Nat) (lo hi : Nat) : Bool :=
  match o with
  | some v => decide (lo ≤ v ∧ v ≤ hi)
  | none => false

/-- Modelled from the claim wording: classify the cleaned PAN by its
numeric prefix -- 4 is visa; 51 to 55 or a four-digit prefix from 2221
to 2720 is mastercard; 60, 6521 or 6522 is rupay; 34 or 37 is amex;
anything else is unknown, first rule winning. -/
def specGo (cleaned : List Char) : String :=
  if firstDigits 1 cleaned = some 4 then "visa"
  else if (numBetween (firstDigits 2 cleaned) 51 55 ||
      numBetween (firstDigits 4 cleaned) 2221 2720) then "mastercard"
  else if (firstDigits 2 cleaned = some 60 ∨ firstDigits 4 cleaned = some 6521 ∨
      firstDigits 4 cleaned = some 6522) then "rupay"
  else if (firstDigits 2 cleaned = some 34 ∨ firstDigits 2 cleaned = some 37) then "amex"
  else "unknown"

/-- The claim's classifier on a raw PAN string. -/
def specDetectNetwork (pan : String) : String :=
  specGo (cleanPan pan)

/-- firstDigits on a one-long-enough list. -/
theorem firstDigits_one (c0 : Char) (t : List Char) :
    firstDigits 1 (c0 :: t)
      = if c0.isDigit = true then some (digitVal c0) else none := by
  by_cases h : c0.isDigit = true
  · simp [firstDigits, h]
  · simp [firstDigits, h]

/-- firstDigits 2 on a list with at least two characters. -/
theorem firstDigits_two (c0 c1 : Char) (t : List Char) :
    firstDigits 2 (c0 :: c1 :: t)
      = if c0.isDigit = true ∧ c1.isDigit = true then
          some (digitVal c0 * 10 + digitVal c1) else none := by
  by_cases h0 : c0.isDigit = true <;> by_cases h1 : c1.isDigit = true <;>
    simp [firstDigits, h0, h1]

/-- firstDigits 2 on a singleton. -/
theorem firstDigits_two_short (c0 : Char) :
    firstDigits 2 [c0] = none := by
  simp [firstDigits]

/-- firstDigits 4 on a list with at least four characters. -/
theorem firstDigits_four (c0 c1 c2 c3 : Char) (t : List Char) :
    firstDigits 4 (c0 :: c1 :: c2 :: c3 :: t)
      = if c0.isDigit = true ∧ c1.isDigit = true ∧ c2.isDigit = true ∧ c3.isDigit = true then
          some (((digitVal c0 * 10 + digitVal c1) * 10 + digitVal c2) * 10 + digitVal c3)
        else none := by
  by_cases h0 : c0.isDigit = true <;> by_cases h1 : c1.isDigit = true <;>
    by_cases h2 : c2.isDigit = true <;> by_cases h3 : c3.isDigit = true <;>
    simp [firstDigits, h0, h1, h2, h3, Nat.mul_add, Nat.add_mul]

/-- firstDigits 4 on a too-short list. -/
theorem firstDigits_four_short (l : List Char) (h : l.length < 4) :
    firstDigits 4 l = none := by
  unfold firstDigits
  rw [if_neg]
  rintro ⟨hl, -⟩
  rw [List.length_take] at hl
  omega

/-- numBetween over a conditional prefix value. -/
theorem numBetween_if (P : Prop) [Decidable P] (v lo hi : Nat) :
    numBetween (if P then some v else none) lo hi = true ↔ P ∧ lo ≤ v ∧ v ≤ hi := by
  by_cases h : P <;> simp [numBetween, h]

/-- Equality with some over a conditional prefix value. -/
theorem optionIf_eq_some (P : Prop) [Decidable P] (v w : Nat) :
    (if P then some v else none) = some w ↔ P ∧ v = w := by
  by_cases h : P <;> simp [h]

/-- Code points of the digit literals used by the detector. -/
theorem charNum0 : ('0' : Char).toNat = 48 := rfl

/-- Code point of the literal 1. -/
theorem charNum1 : ('1' : Char).toNat = 49 := rfl

/-- Code point of the literal 2. -/
theorem charNum2 : ('2' : Char).toNat = 50 := rfl

/-- Code point of the literal 3. -/
theorem charNum3 : ('3' : Char).toNat = 51 := rfl

/-- Code point of the literal 4. -/
theorem charNum4 : ('4' : Char).toNat = 52 := rfl

/-- Code point of the literal 5. -/
theorem charNum5 : ('5' : Char).toNat = 53 := rfl

/-- Code point of the literal 6. -/
theorem charNum6 : ('6' : Char).toNat = 54 := rfl

/-- Code point of the literal 7. -/
theorem charNum7 : ('7' : Char).toNat = 55 := rfl

/-- Code point of the literal 9. -/
theorem charNum9 : ('9' : Char).toNat = 57 := rfl

/-- The visa rule agrees with the claim's one-digit-prefix reading. -/
theorem reVisa_iff (l : List Char) : reVisa l = true ↔ firstDigits 1 l = some 4 := by
  cases l with
  | nil => simp [reVisa, firstDigits]
  | cons c0 t =>
    rw [firstDigits_one, optionIf_eq_some]
    simp only [reVisa, beq_iff_eq, char_eq_iff, charNum4, char_isDigit_iff, digitVal]
    omega

/-- numBetween of an absent prefix. -/
theorem numBetween_none (lo hi : Nat) : numBetween none lo hi = false := rfl

set_option maxHeartbeats 1000000 in
/-- The mastercard rules agree with the claim's numeric ranges 51 to 55
and 2221 to 2720. -/
theorem reMc_iff (l : List Char) :
    (reMc51 l || reMc2 l) = true
      ↔ (numBetween (firstDigits 2 l) 51 55 ||
          numBetween (firstDigits 4 l) 2221 2720) = true := by
  rcases l with _ | ⟨c0, _ | ⟨c1, _ | ⟨c2, _ | ⟨c3, t⟩⟩⟩⟩
  · simp [reMc51, reMc2, firstDigits, numBetween]
  · simp [reMc51, reMc2, firstDigits, numBetween]
  · rw [firstDigits_two, firstDigits_four_short _ (by simp)]
    simp [reMc51, reMc2, charBetween_iff, char_isDigit_iff, char_eq_iff, digitVal,
      numBetween_if, numBetween_none,
      charNum1, charNum2, charNum3, charNum5, charNum9]
    omega
  · rw [firstDigits_two, firstDigits_four_short _ (by simp)]
    simp [reMc51, reMc2, charBetween_iff, char_isDigit_iff, char_eq_iff, digitVal,
      numBetween_if, numBetween_none,
      charNum1, charNum2, charNum3, charNum5, charNum9]
    omega
  · rw [firstDigits_two, firstDigits_four]
    simp [reMc51, reMc2, charBetween_iff, char_isDigit_iff, char_eq_iff, digitVal,
      numBetween_if,
      charNum0, charNum1, charNum2, charNum3, charNum5, charNum6, charNum7, charNum9]
    omega

/-- The rupay rule agrees with the claim's prefixes 60, 6521, 6522. -/
theorem reRupay_iff (l : List Char) :
    reRupay l = true
      ↔ (firstDigits 2 l = some 60 ∨ firstDigits 4 l = some 6521 ∨
          firstDigits 4 l = some 6522) := by
  rcases l with _ | ⟨c0, _ | ⟨c1, _ | ⟨c2, _ | ⟨c3, t⟩⟩⟩⟩
  · simp [reRupay, leadsWith, firstDigits]
  · simp [reRupay, leadsWith, firstDigits]
  · rw [firstDigits_two, firstDigits_four_short _ (by simp), optionIf_eq_some]
    simp [reRupay, leadsWith, char_eq_iff, char_isDigit_iff, digitVal,
      charNum0, charNum1, charNum2, charNum5, charNum6]
    omega
  · rw [firstDigits_two, firstDigits_four_short _ (by simp), optionIf_eq_some]
    simp [reRupay, leadsWith, char_eq_iff, char_isDigit_iff, digitVal,
      charNum0, charNum1, charNum2, charNum5, charNum6]
    omega
  · rw [firstDigits_two, firstDigits_four, optionIf_eq_some, optionIf_eq_some,
      optionIf_eq_some]
    simp [reRupay, leadsWith, char_eq_iff, char_isDigit_iff, digitVal,
      charNum0, charNum1, charNum2, charNum5, charNum6]
    omega

/-- The amex rule agrees with the claim's prefixes 34 and 37. -/
theorem reAmex_iff (l : List Char) :
    reAmex l = true
      ↔ (firstDigits 2 l = some 34 ∨ firstDigits 2 l = some 37) := by
  rcases l with _ | ⟨c0, _ | ⟨c1, t⟩⟩
  · simp [reAmex, firstDigits]
  · simp [reAmex, firstDigits]
  · rw [firstDigits_two, optionIf_eq_some, optionIf_eq_some]
    simp only [reAmex, Bool.or_eq_true, Bool.and_eq_true, beq_iff_eq,
      char_eq_iff, char_isDigit_iff, digitVal, charNum3, charNum4, charNum7]
    omega

/-- The two cascades agree on every cleaned input. -/
theorem detectGo_eq_specGo (l : List Char) : detectGo l = specGo l := by
  unfold detectGo specGo
  by_cases h1 : reVisa l = true
  · rw [if_pos h1, if_pos ((reVisa_iff l).mp h1)]
  · rw [if_neg h1, if_neg (fun hc => h1 ((reVisa_iff l).mpr hc))]
    by_cases h2 : (reMc51 l || reMc2 l) = true
    · rw [if_pos h2, if_pos ((reMc_iff l).mp h2)]
    · rw [if_neg h2, if_neg (fun hc => h2 ((reMc_iff l).mpr hc))]
      by_cases h3 : reRupay l = true
      · rw [if_pos h3, if_pos ((reRupay_iff l).mp h3)]
      · rw [if_neg h3, if_neg (fun hc => h3 ((reRupay_iff l).mpr hc))]
        by_cases h4 : reAmex l = true
        · rw [if_pos h4, if_pos ((reAmex_iff l).mp h4)]
        · rw [if_neg h4, if_neg (fun hc => h4 ((reAmex_iff l).mpr hc))]

/-- C4.  detectCardNetwork classifies the cleaned PAN by prefix, first
matching rule winning, exactly as the claim's numeric ranges state:
prefix 4 is visa, 51 to 55 or a four-digit prefix 2221 to 2720 is
mastercard, 60 or 6521 or 6522 is rupay, 34 or 37 is amex, anything
else unknown.  In particular 5555555555554444 is mastercard,
378282246310005 is amex, and every PAN whose cleaned form starts with
60 is rupay. -/
theorem detectCardNetwork_spec :
    (∀ pan : String, CardTokenizer.detectCardNetwork pan = specDetectNetwork pan) ∧
    CardTokenizer.detectCardNetwork "5555555555554444" = "mastercard" ∧
    CardTokenizer.detectCardNetwork "378282246310005" = "amex" ∧
    (∀ pan : String, leadsWith ['6', '0'] (cleanPan pan) = true →
      CardTokenizer.detectCardNetwork pan = "rupay") := by
  refine ⟨?_, by decide, by decide, ?_⟩
  · intro pan
    exact detectGo_eq_specGo (cleanPan pan)
  · intro pan h60
    unfold CardTokenizer.detectCardNetwork
    rcases hl : cleanPan pan with _ | ⟨c0, _ | ⟨c1, t2⟩⟩
    · rw [hl] at h60; exact absurd h60 (by decide)
    · rw [hl] at h60; simp [leadsWith] at h60
    · rw [hl] at h60
      simp only [leadsWith, Bool.and_eq_true, Bool.and_true, beq_iff_eq] at h60
      obtain ⟨h6, h0⟩ := h60
      subst h6
      subst h0
      rcases t2 with _ | ⟨c2, _ | ⟨c3, t3⟩⟩ <;> rfl

/-- Witness for C4's conditional clause: a PAN starting with 60 is
classified rupay. -/
theorem detectCardNetwork_spec_witness :
    leadsWith ['6', '0'] (cleanPan "6011111111111117") = true ∧
    CardTokenizer.detectCardNetwork "6011111111111117" = "rupay" :=
  ⟨by decide, detectCardNetwork_spec.2.2.2 "6011111111111117" (by decide)⟩

/-- A Stellar keypair as the engine sees it: the raw secret and the
derived public address. -/
structure Keypair where
  secret : String
  publicKey : String
deriving DecidableEq

/-- The per-session state of class TycheeSDK: optional keypair,
optional public identity, whether an external transaction signer and a
message signer are attached, and the cached signature-derived
encryption key.  The behaviour of the attached callbacks lives in the
environment, since they are external collaborators. -/
structure Session where
  userKeypair : Option Keypair := none
  userPublicKey : Option String := none
  hasExternalSigner : Bool := false
  hasMessageSigner : Bool := false
  derivedEncryptionKey : Option Bytes := none
deriving DecidableEq

/-- The cause of a failed network-facing call, as the engine's catch
blocks see it through error.message: the not-found condition retrieve
expects, a network failure, or any other error. -/
inductive ErrCause
  | accountNotFound
  | networkDown
  | other (msg : String)
deriving DecidableEq

/-- The message carried by the thrown error object. -/
def ErrCause.message : ErrCause → String
  | accountNotFound => "account or contract not found"
  | networkDown => "network error"
  | other msg => msg

/-- A loaded Horizon account (only its existence matters here). -/
structure Account where
  sequence : Nat
deriving DecidableEq

/-- A successful submission response: the transaction hash. -/
structure TxResponse where
  hash : String
deriving DecidableEq

/-- A Soroban argument value as built by nativeToScVal. -/
inductive ScVal
  | addr (a : String)
  | bytes (b : Bytes)
  | str (s : String)
  | u64 (n : Nat)
deriving DecidableEq

/-- A built contract invocation: the method name and its arguments. -/
structure Tx where
  method : String
  args : List ScVal
deriving DecidableEq

/-- A network request the engine issues. -/
inductive NetEffect
  | loadAccount
  | submitTx (tx : Tx)
deriving DecidableEq

/-- The tagged result revokeCard and setAAMode return. -/
structure TransactionResult where
  success : Bool
  txHash : String
  error : Option String := none
deriving DecidableEq

/-- The TokenMetadata record a successful store returns. -/
structure TokenMetadata where
  userId : String
  tokenHash : String
  encryptedPayload : Bytes
  last4Digits : String
  cardNetwork : String
  status : String
  createdAt : Nat
  expiresAt : Nat
  sorobanTxId : Option String
deriving DecidableEq

/-- The environment of one engine call: the outcome of loading the
account, of the external signer callback, and of submitting, plus the
current time.  Each operation consults it at its suspension points. -/
structure Env where
  loadAccount : Except ErrCause Account
  signTx : Tx → Except ErrCause Tx
  submit : Tx → Except ErrCause TxResponse
  now : Nat

namespace TycheeSDK

/-- TycheeSDK.getUserAddress: the bound public identity, or the
keypair's address; throws when neither is present. -/
def getUserAddress (sess : Session) : Except String String :=
  match sess.userPublicKey, sess.userKeypair with
  | none, none => Except.error "SDK not initialized. Call initialize() first."
  | some pk, _ => Except.ok pk
  | none, some kp => Except.ok kp.publicKey

/-- TycheeSDK.canWrite: a keypair or an external signer is present. -/
def canWrite (sess : Session) : Bool :=
  sess.userKeypair.isSome || sess.hasExternalSigner

/-- TycheeSDK.canEncrypt: a keypair or a cached derived key is
present. -/
def canEncrypt (sess : Session) : Bool :=
  sess.userKeypair.isSome || sess.derivedEncryptionKey.isSome

/-- TycheeSDK.storeCard.  Returns the operation result, the card data
object as the caller sees it afterwards (the network field may have
been overwritten in place), and the network requests issued.  The
steps follow the source: address and capability checks, Luhn
validation, network auto-detection for an unset or visa card, key
selection (keypair-derived or cached signature-derived), encryption,
expiry computation (dateToUnix stands for the Date arithmetic),
account load, transaction build, signing (in-process for a keypair,
via the external signer otherwise), submission, and metadata
construction; errors thrown inside the try block are logged and
rethrown unchanged. -/
def storeCard (sha256 : Bytes → Bytes)
    (aeadEnc : Bytes → Bytes → Bytes → Bytes × Bytes)
    (iv : Bytes) (dateToUnix : String → String → Nat)
    (sess : Session) (env : Env) (cardData : CardData) :
    Except String TokenMetadata × CardData × List NetEffect :=
  match getUserAddress sess with
  | Except.error e => (Except.error e, cardData, [])
  | Except.ok userAddress =>
  if canWrite sess = false then
    (Except.error "SDK not initialized for write operations", cardData, [])
  else if canEncrypt sess = false then
    (Except.error "SDK cannot encrypt - need secret key or message signer for key derivation",
      cardData, [])
  else if CardTokenizer.validateCardNumber cardData.pan = false then
    (Except.error "Invalid card number (failed Luhn check)", cardData, [])
  else
    let card :=
      if cardData.network = "" ∨ cardData.network = "visa" then
        if CardTokenizer.detectCardNetwork cardData.pan ≠ "unknown" then
          { cardData with network := CardTokenizer.detectCardNetwork cardData.pan }
        else cardData
      else cardData
    let keyRes : Except String Bytes :=
      match sess.userKeypair with
      | some kp => Except.ok (RingCompatibleCrypto.deriveUserKey sha256 kp.secret)
      | none =>
        match sess.derivedEncryptionKey with
        | some k => Except.ok k
        | none => Except.error "No encryption key available"
    match keyRes with
    | Except.error e => (Except.error e, card, [])
    | Except.ok encryptionKey =>
    match CardTokenizer.encryptCard sha256 aeadEnc iv card encryptionKey with
    | Except.error e => (Except.error e, card, [])
    | Except.ok (encryptedPayload, tokenHash, last4Digits) =>
    let expiresAt := dateToUnix card.expiryMonth card.expiryYear
    match env.loadAccount with
    | Except.error e => (Except.error e.message, card, [NetEffect.loadAccount])
    | Except.ok _account =>
    let transaction : Tx :=
      { method := "store_token"
      , args := [ScVal.addr userAddress, ScVal.bytes encryptedPayload,
          ScVal.bytes tokenHash, ScVal.str last4Digits,
          ScVal.str card.network, ScVal.u64 expiresAt] }
    let signedRes : Except String Tx :=
      match sess.userKeypair with
      | some _ => Except.ok transaction
      | none =>
        if sess.hasExternalSigner then
          match env.signTx transaction with
          | Except.ok st => Except.ok st
          | Except.error e => Except.error e.message
        else Except.error "No signer available"
    match signedRes with
    | Except.error e => (Except.error e, card, [NetEffect.loadAccount])
    | Except.ok signedTx =>
    match env.submit signedTx with
    | Except.error e => (Except.error e.message, card,
        [NetEffect.loadAccount, NetEffect.submitTx signedTx])
    | Except.ok response =>
      (Except.ok
        { userId := userAddress
        , tokenHash := bytesToHex tokenHash
        , encryptedPayload := encryptedPayload
        , last4Digits := last4Digits
        , cardNetwork := card.network
        , status := "active"
        , createdAt := env.now
        , expiresAt := expiresAt
        , sorobanTxId := some response.hash },
       card, [NetEffect.loadAccount, NetEffect.submitTx signedTx])

/-- TycheeSDK.retrieveCard.  After the address and capability checks,
the whole transaction flow sits in one try block whose catch returns
null, and the success path also returns null (response parsing is a
placeholder in the source). -/
def retrieveCard (sess : Session) (env : Env) :
    Except String (Option TokenMetadata) × List NetEffect :=
  match getUserAddress sess with
  | Except.error e => (Except.error e, [])
  | Except.ok userAddress =>
  if canWrite sess = false then
    (Except.error "SDK not initialized for operations", [])
  else
    match env.loadAccount with
    | Except.error _ => (Except.ok none, [NetEffect.loadAccount])
    | Except.ok _account =>
    let transaction : Tx := { method := "retrieve_token", args := [ScVal.addr userAddress] }
    let signedRes : Except String Tx :=
      match sess.userKeypair with
      | some _ => Except.ok transaction
      | none =>
        if sess.hasExternalSigner then
          match env.signTx transaction with
          | Except.ok st => Except.ok st
          | Except.error e => Except.error e.message
        else Except.error "No signer available"
    match signedRes with
    | Except.error _ => (Except.ok none, [NetEffect.loadAccount])
    | Except.ok signedTx =>
    match env.submit signedTx with
    | Except.error _ => (Except.ok none,
        [NetEffect.loadAccount, NetEffect.submitTx signedTx])
    | Except.ok _response => (Except.ok none,
        [NetEffect.loadAccount, NetEffect.submitTx signedTx])

/-- TycheeSDK.revokeCard.  After the address and capability checks,
every outcome of the try block maps to a tagged TransactionResult:
success with the transaction hash, or failure with an empty hash and
the error message. -/
def revokeCard (sess : Session) (env : Env) :
    Except String TransactionResult × List NetEffect :=
  match getUserAddress sess with
  | Except.error e => (Except.error e, [])
  | Except.ok userAddress =>
  if canWrite sess = false then
    (Except.error "SDK not initialized for operations", [])
  else
    match env.loadAccount with
    | Except.error e =>
        (Except.ok { success := false, txHash := "", error := some e.message },
          [NetEffect.loadAccount])
    | Except.ok _account =>
    let transaction : Tx := { method := "revoke_token", args := [ScVal.addr userAddress] }
    let signedRes : Except String Tx :=
      match sess.userKeypair with
      | some _ => Except.ok transaction
      | none =>
        if sess.hasExternalSigner then
          match env.signTx transaction with
          | Except.ok st => Except.ok st
          | Except.error e => Except.error e.message
        else Except.error "No signer available"
    match signedRes with
    | Except.error e =>
        (Except.ok { success := false, txHash := "", error := some e },
          [NetEffect.loadAccount])
    | Except.ok signedTx =>
    match env.submit signedTx with
    | Except.error e =>
        (Except.ok { success := false, txHash := "", error := some e.message },
          [NetEffect.loadAccount, NetEffect.submitTx signedTx])
    | Except.ok response =>
        (Except.ok { success := true, txHash := response.hash, error := none },
          [NetEffect.loadAccount, NetEffect.submitTx signedTx])

/-- TycheeSDK.deriveEncryptionKeyFromSignature: return the cached key
when present; otherwise require a message signer and a public
identity, sign the fixed versioned challenge, hash the signature into
the key, and cache it on the session.  The wallet's response to the
challenge is the deterministic callback signMessage. -/
def deriveEncryptionKeyFromSignature (sha256 : Bytes → Bytes)
    (signMessage : String → String) (sess : Session) :
    Except String (Bytes × Session) :=
  match sess.derivedEncryptionKey with
  | some k => Except.ok (k, sess)
  | none =>
    match sess.userPublicKey, sess.hasMessageSigner with
    | some pk, true =>
        let key := sha256 (strBytes (signMessage ("TYCHEE_KEY_DERIVATION:" ++ pk ++ ":v1")))
        Except.ok (key, { sess with derivedEncryptionKey := some key })
    | _, _ => Except.error "Message signer not available. Cannot derive encryption key."

end TycheeSDK

/-- C6.  A session holding only a public identity (no keypair, no
external signer, no message signer, no derived key) has neither write
nor encrypt capability, and storeCard rejects it with the capability
error before issuing any network request: the result carries the
write-capability error, the caller's card object is untouched, and the
effect list is empty. -/
theorem storeCard_readonly_rejected (sha256 : Bytes → Bytes)
    (aeadEnc : Bytes → Bytes → Bytes → Bytes × Bytes) (iv : Bytes)
    (dateToUnix : String → String → Nat) (pk : String) (env : Env) (card : CardData) :
    TycheeSDK.canWrite { userPublicKey := some pk } = false ∧
    TycheeSDK.canEncrypt { userPublicKey := some pk } = false ∧
    TycheeSDK.storeCard sha256 aeadEnc iv dateToUnix
        { userPublicKey := some pk } env card
      = (Except.error "SDK not initialized for write operations", card, []) :=
  ⟨rfl, rfl, rfl⟩

/-- C5 amended.  Once the address and write-capability checks pass,
retrieveCard returns a null result for every outcome of the
transaction flow -- account or contract not found, network failure,
any other submission error, and even success -- and never raises. -/
theorem retrieveCard_nulls_all_outcomes (sess : Session) (env : Env) (a : String)
    (ha : TycheeSDK.getUserAddress sess = Except.ok a)
    (hw : TycheeSDK.canWrite sess = true) :
    (TycheeSDK.retrieveCard sess env).1 = Except.ok none := by
  simp only [TycheeSDK.retrieveCard, ha, hw]
  rcases hla : env.loadAccount with e | acct
  · simp
  · simp only
    rcases hk : sess.userKeypair with _ | kp
    · rcases hes : sess.hasExternalSigner with _ | _
      · simp [hk, hes]
      · simp only [hk, hes, if_true]
        rcases hst : env.signTx { method := "retrieve_token", args := [ScVal.addr a] }
          with e2 | st
        · simp
        · rcases hsub : env.submit st with e3 | r <;> simp [hsub]
    · simp only [hk]
      rcases hsub : env.submit { method := "retrieve_token", args := [ScVal.addr a] }
        with e3 | r <;> simp [hsub]

/-- Witness for C5's amended theorem: a keypair session against an
environment whose submission fails still gets a null result. -/
theorem retrieveCard_nulls_all_outcomes_witness :
    (TycheeSDK.retrieveCard { userKeypair := some ⟨"SKEY", "GADDR"⟩ }
        { loadAccount := Except.ok ⟨0⟩, signTx := fun t => Except.ok t,
          submit := fun _ => Except.error (ErrCause.other "boom"), now := 0 }).1
      = Except.ok none :=
  retrieveCard_nulls_all_outcomes
    { userKeypair := some ⟨"SKEY", "GADDR"⟩ }
    { loadAccount := Except.ok ⟨0⟩, signTx := fun t => Except.ok t,
      submit := fun _ => Except.error (ErrCause.other "boom"), now := 0 }
    "GADDR" rfl rfl

/-- C5 counterexample.  The claim says retrieveCard raises on every
error that is not a network or account/contract-not-found condition
and never maps such an error to null.  But the catch block is total:
here the submission fails with an unrelated error (other
"tx_malformed", not a not-found and not a network condition), and
retrieveCard still returns a null result instead of raising. -/
theorem retrieveCard_null_on_other_error :
    (TycheeSDK.retrieveCard { userKeypair := some ⟨"SKEY2", "GADDR2"⟩ }
        { loadAccount := Except.ok ⟨0⟩, signTx := fun t => Except.ok t,
          submit := fun _ => Except.error (ErrCause.other "tx_malformed"), now := 0 }).1
      = Except.ok none ∧
    ({ loadAccount := Except.ok ⟨0⟩, signTx := fun t => Except.ok t,
       submit := fun _ => Except.error (ErrCause.other "tx_malformed"), now := 0 } : Env).submit
        { method := "retrieve_token", args := [ScVal.addr "GADDR2"] }
      = Except.error (ErrCause.other "tx_malformed") :=
  ⟨rfl, rfl⟩

/-- A revoke outcome is a well-formed tagged result: an ok value whose
success flag carries the hash-and-no-error or empty-hash-and-error
shape; a raised exception is not. -/
def isTaggedResult : Except String TransactionResult → Bool
  | Except.ok r => if r.success then r.error == none else r.txHash == "" && !(r.error == none)
  | Except.error _ => false

/-- C7 amended.  For every session that has an identity and write
capability, and every outcome of account load, signing and submission,
revokeCard returns a tagged success/failure TransactionResult and
never raises: on success the error field is empty, on failure the hash
is empty and the error message is present.  (A session without an
identity or signer still raises before the try block; see the
counterexample.) -/
theorem revokeCard_tagged (sess : Session) (env : Env) (a : String)
    (ha : TycheeSDK.getUserAddress sess = Except.ok a)
    (hw : TycheeSDK.canWrite sess = true) :
    isTaggedResult (TycheeSDK.revokeCard sess env).1 = true := by
  simp only [TycheeSDK.revokeCard, ha, hw]
  rcases hla : env.loadAccount with e | acct
  · simp [isTaggedResult]
  · simp only
    rcases hk : sess.userKeypair with _ | kp
    · rcases hes : sess.hasExternalSigner with _ | _
      · simp [hk, hes, isTaggedResult]
      · simp only [hk, hes, if_true]
        rcases hst : env.signTx { method := "revoke_token", args := [ScVal.addr a] }
          with e2 | st
        · simp [isTaggedResult]
        · rcases hsub : env.submit st with e3 | r <;> simp [hsub, isTaggedResult]
    · simp only [hk]
      rcases hsub : env.submit { method := "revoke_token", args := [ScVal.addr a] }
        with e3 | r <;> simp [hsub, isTaggedResult]

/-- Witness for C7's amended theorem: a keypair session whose
submission fails still receives a tagged failure result. -/
theorem revokeCard_tagged_witness :
    isTaggedResult (TycheeSDK.revokeCard { userKeypair := some ⟨"SKEY", "GADDR"⟩ }
        { loadAccount := Except.ok ⟨0⟩, signTx := fun t => Except.ok t,
          submit := fun _ => Except.error (ErrCause.other "boom"), now := 0 }).1
      = true :=
  revokeCard_tagged
    { userKeypair := some ⟨"SKEY", "GADDR"⟩ }
    { loadAccount := Except.ok ⟨0⟩, signTx := fun t => Except.ok t,
      submit := fun _ => Except.error (ErrCause.other "boom"), now := 0 }
    "GADDR" rfl rfl

/-- C7 counterexample.  The claim says revokeCard never raises for any
session.  But a session holding only a public identity (no keypair, no
external signer) makes revokeCard throw the not-initialized error
before any transaction is attempted, rather than returning a tagged
result. -/
theorem revokeCard_raises_when_uninit :
    (TycheeSDK.revokeCard { userPublicKey := some "GUSER" }
        { loadAccount := Except.ok ⟨0⟩, signTx := fun t => Except.ok t,
          submit := fun _ => Except.ok ⟨"TX"⟩, now := 0 }).1
      = Except.error "SDK not initialized for operations" :=
  rfl

/-- C8.  Key derivation is deterministic on both paths.  Direct path:
deriveUserKey is SHA-256 of the raw secret's bytes, a pure function of
the secret, with a 32-byte result.  Delegated path: with no cached key
yet, deriveEncryptionKeyFromSignature signs the fixed versioned
challenge TYCHEE_KEY_DERIVATION:userId:v1, hashes the signed message
into the key, caches it, and a repeated call returns the identical
key; the same signed-challenge response always yields the identical
32-byte key. -/
theorem deriveKey_deterministic (sha256 : Bytes → Bytes)
    (signMessage : String → String) (sess : Session) (pk secret : String)
    (hpk : sess.userPublicKey = some pk)
    (hms : sess.hasMessageSigner = true)
    (hnc : sess.derivedEncryptionKey = none)
    (hlen : ∀ b, (sha256 b).length = 32) :
    (RingCompatibleCrypto.deriveUserKey sha256 secret = sha256 (strBytes secret) ∧
     (RingCompatibleCrypto.deriveUserKey sha256 secret).length = 32) ∧
    (let key := sha256 (strBytes (signMessage ("TYCHEE_KEY_DERIVATION:" ++ pk ++ ":v1")))
     TycheeSDK.deriveEncryptionKeyFromSignature sha256 signMessage sess
        = Except.ok (key, { sess with derivedEncryptionKey := some key }) ∧
     TycheeSDK.deriveEncryptionKeyFromSignature sha256 signMessage
          { sess with derivedEncryptionKey := some key }
        = Except.ok (key, { sess with derivedEncryptionKey := some key }) ∧
     key.length = 32) := by
  refine ⟨⟨rfl, hlen _⟩, ?_, ?_, hlen _⟩
  · simp [TycheeSDK.deriveEncryptionKeyFromSignature, hnc, hpk, hms]
  · simp [TycheeSDK.deriveEncryptionKeyFromSignature]

/-- Witness for C8 at a concrete session, hash and wallet response. -/
theorem deriveKey_deterministic_witness :
    (RingCompatibleCrypto.deriveUserKey (fun _ => List.replicate 32 0) "SEC"
        = List.replicate 32 0 ∧
     (RingCompatibleCrypto.deriveUserKey (fun _ => List.replicate 32 0) "SEC").length = 32) ∧
    (let key : Bytes := List.replicate 32 0
     TycheeSDK.deriveEncryptionKeyFromSignature (fun _ => List.replicate 32 0)
          (fun _ => "SIG") { userPublicKey := some "GPK", hasMessageSigner := true }
        = Except.ok (key, { userPublicKey := some "GPK", hasMessageSigner := true, derivedEncryptionKey := some key }) ∧
     TycheeSDK.deriveEncryptionKeyFromSignature (fun _ => List.replicate 32 0)
          (fun _ => "SIG") { userPublicKey := some "GPK", hasMessageSigner := true, derivedEncryptionKey := some key }
        = Except.ok (key, { userPublicKey := some "GPK", hasMessageSigner := true, derivedEncryptionKey := some key }) ∧
     key.length = 32) :=
  deriveKey_deterministic (fun _ => List.replicate 32 0) (fun _ => "SIG")
    { userPublicKey := some "GPK", hasMessageSigner := true }
    "GPK" "SEC" rfl rfl rfl (fun _ => by simp)

/-- Where one derivation request stands inside
deriveEncryptionKeyFromSignature: about to run the cache check, parked
on the awaited signature, or returned. -/
inductive DPhase
  | ready
  | awaitingSig
  | done
deriving DecidableEq

/-- One derivation request: its phase and, once finished, its key. -/
structure DCaller where
  phase : DPhase
  result : Option Bytes
deriving DecidableEq

/-- Two derivation requests racing on one session: the session's
cached derivedEncryptionKey, both callers, and how many times the
user-visible message-signer callback has been invoked. -/
structure DMachine where
  cache : Option Bytes
  callerA : DCaller
  callerB : DCaller
  sigCalls : Nat
deriving DecidableEq

/-- One atomic step of deriveEncryptionKeyFromSignature by one caller,
as the single-threaded event loop schedules it.  A ready caller checks
the cache: a hit returns it at once; a miss invokes the signer and
suspends at the await.  A resumed caller hashes the wallet's response
sigResp into the key, overwrites the cache, and returns. -/
def dStep (sha256 : Bytes → Bytes) (sigResp : String) (cache : Option Bytes)
    (c : DCaller) (calls : Nat) : Option Bytes × DCaller × Nat :=
  match c.phase, cache with
  | DPhase.ready, some k => (cache, { phase := DPhase.done, result := some k }, calls)
  | DPhase.ready, none => (none, { phase := DPhase.awaitingSig, result := none }, calls + 1)
  | DPhase.awaitingSig, _ =>
      (some (sha256 (strBytes sigResp)),
       { phase := DPhase.done, result := some (sha256 (strBytes sigResp)) }, calls)
  | DPhase.done, _ => (cache, c, calls)

/-- Run a schedule: true steps caller A, false steps caller B. -/
def dRun (sha256 : Bytes → Bytes) (sigResp : String) :
    List Bool → DMachine → DMachine
  | [], m => m
  | pick :: rest, m =>
      if pick then
        dRun sha256 sigResp rest
          { cache := (dStep sha256 sigResp m.cache m.callerA m.sigCalls).1,
            callerA := (dStep sha256 sigResp m.cache m.callerA m.sigCalls).2.1,
            callerB := m.callerB,
            sigCalls := (dStep sha256 sigResp m.cache m.callerA m.sigCalls).2.2 }
      else
        dRun sha256 sigResp rest
          { cache := (dStep sha256 sigResp m.cache m.callerB m.sigCalls).1,
            callerA := m.callerA,
            callerB := (dStep sha256 sigResp m.cache m.callerB m.sigCalls).2.1,
            sigCalls := (dStep sha256 sigResp m.cache m.callerB m.sigCalls).2.2 }

/-- A fresh session with an attached message signer and no cached key,
and two pending derivation requests. -/
def dInit : DMachine :=
  { cache := none,
    callerA := { phase := DPhase.ready, result := none },
    callerB := { phase := DPhase.ready, result := none },
    sigCalls := 0 }

/-- C9 amended.  The derived key is cached once a derivation
completes: when the first request runs to completion before the second
starts, the second is served from the session cache without invoking
the message-signer callback again -- one invocation in total, both
callers receiving the identical key.  (Two requests in flight at once
each invoke the callback, however: the cache is only written after the
awaited signature returns; see the counterexample.) -/
theorem derive_cached_after_completion (sha256 : Bytes → Bytes) (sigResp : String) :
    (dRun sha256 sigResp [true, true, false] dInit).sigCalls = 1 ∧
    (dRun sha256 sigResp [true, true, false] dInit).cache
      = some (sha256 (strBytes sigResp)) ∧
    (dRun sha256 sigResp [true, true, false] dInit).callerA.result
      = some (sha256 (strBytes sigResp)) ∧
    (dRun sha256 sigResp [true, true, false] dInit).callerB.result
      = some (sha256 (strBytes sigResp)) :=
  ⟨rfl, rfl, rfl, rfl⟩

/-- C9 counterexample.  The claim says concurrent derivation requests
collapse into a single in-flight computation, so the signer callback
is never invoked twice.  But in the interleaving where both requests
pass the cache check before either signature returns (steps A, B, A,
B), the callback is invoked twice -- the source writes the cache only
after the await, with no in-flight guard. -/
theorem derive_signer_invoked_twice :
    (dRun (fun _ => List.replicate 32 0) "SIG" [true, false, true, false] dInit).sigCalls
      = 2 ∧
    (dRun (fun _ => List.replicate 32 0) "SIG" [true, false, true, false] dInit).callerA.result
      = some (List.replicate 32 0) ∧
    (dRun (fun _ => List.replicate 32 0) "SIG" [true, false, true, false] dInit).callerB.result
      = some (List.replicate 32 0) :=
  ⟨rfl, rfl, rfl⟩

/-- C10.  storeCard mutates the caller's card: when the incoming
network is unset or visa and detection on the PAN yields something
other than unknown, the card's network field is overwritten with the
detected value before encryption, so the card is serialized,
encrypted, hashed and submitted to store_token under the detected
network, the returned metadata carries it, and the card object the
caller handed in now shows the detected network. -/
theorem storeCard_network_overwrite (sha256 : Bytes → Bytes)
    (aeadEnc : Bytes → Bytes → Bytes → Bytes × Bytes)
    (iv : Bytes) (dateToUnix : String → String → Nat)
    (kp : Keypair) (sess : Session) (env : Env) (card : CardData)
    (acct : Account) (resp : TxResponse) (a : String)
    (hkp : sess.userKeypair = some kp)
    (ha : TycheeSDK.getUserAddress sess = Except.ok a)
    (hv : CardTokenizer.validateCardNumber card.pan = true)
    (hn : card.network = "" ∨ card.network = "visa")
    (hd : CardTokenizer.detectCardNetwork card.pan ≠ "unknown")
    (hsha : ∀ b, (sha256 b).length = 32)
    (hload : env.loadAccount = Except.ok acct)
    (hsub : ∀ t, env.submit t = Except.ok resp) :
    let detected := CardTokenizer.detectCardNetwork card.pan
    let card2 := { card with network := detected }
    let key := RingCompatibleCrypto.deriveUserKey sha256 kp.secret
    let pt := strBytes (serializeCard card2)
    let payload := iv ++ (aeadEnc key iv pt).1 ++ (aeadEnc key iv pt).2
    let expAt := dateToUnix card.expiryMonth card.expiryYear
    let tx : Tx :=
      { method := "store_token"
      , args := [ScVal.addr a, ScVal.bytes payload,
          ScVal.bytes (RingCompatibleCrypto.hash sha256 pt),
          ScVal.str (jsLast4 card.pan), ScVal.str detected, ScVal.u64 expAt] }
    TycheeSDK.storeCard sha256 aeadEnc iv dateToUnix sess env card
      = (Except.ok
          { userId := a
          , tokenHash := bytesToHex (RingCompatibleCrypto.hash sha256 pt)
          , encryptedPayload := payload
          , last4Digits := jsLast4 card.pan
          , cardNetwork := detected
          , status := "active"
          , createdAt := env.now
          , expiresAt := expAt
          , sorobanTxId := some resp.hash },
         card2, [NetEffect.loadAccount, NetEffect.submitTx tx]) := by
  have hw : TycheeSDK.canWrite sess = true := by simp [TycheeSDK.canWrite, hkp]
  have hce : TycheeSDK.canEncrypt sess = true := by simp [TycheeSDK.canEncrypt, hkp]
  have hkl : (sha256 (strBytes kp.secret)).length = 32 := hsha _
  dsimp only
  simp only [TycheeSDK.storeCard, ha, hw, hce, hv, hkp, hload, hsub,
    CardTokenizer.encryptCard, RingCompatibleCrypto.encrypt, RingCompatibleCrypto.hash,
    RingCompatibleCrypto.deriveUserKey, RingCompatibleCrypto.KEY_LENGTH, hkl]
  rw [if_pos hn, if_pos hd]
  simp [hsub]

/-- Witness for C10: a card explicitly marked visa whose PAN is the
mastercard test number 5555555555554444 ends up stored and returned as
mastercard, and the caller's card object now reads mastercard. -/
theorem storeCard_network_overwrite_witness :
    (TycheeSDK.storeCard (fun _ => List.replicate 32 0)
        (fun _ _ p => (p, List.replicate 16 0)) (List.replicate 12 0) (fun _ _ => 0)
        { userKeypair := some ⟨"SSECRET", "GPUB"⟩ }
        { loadAccount := Except.ok ⟨1⟩, signTx := fun t => Except.ok t,
          submit := fun _ => Except.ok ⟨"TX"⟩, now := 99 }
        ⟨"5555555555554444", "123", "12", "30", "ALICE", "visa"⟩).2.1
      = ⟨"5555555555554444", "123", "12", "30", "ALICE", "mastercard"⟩ ∧
    ((TycheeSDK.storeCard (fun _ => List.replicate 32 0)
        (fun _ _ p => (p, List.replicate 16 0)) (List.replicate 12 0) (fun _ _ => 0)
        { userKeypair := some ⟨"SSECRET", "GPUB"⟩ }
        { loadAccount := Except.ok ⟨1⟩, signTx := fun t => Except.ok t,
          submit := fun _ => Except.ok ⟨"TX"⟩, now := 99 }
        ⟨"5555555555554444", "123", "12", "30", "ALICE", "visa"⟩).1.map
        (fun m => m.cardNetwork))
      = Except.ok "mastercard" := by
  have h := storeCard_network_overwrite (fun _ => List.replicate 32 0)
    (fun _ _ p => (p, List.replicate 16 0)) (List.replicate 12 0) (fun _ _ => 0)
    ⟨"SSECRET", "GPUB"⟩ { userKeypair := some ⟨"SSECRET", "GPUB"⟩ }
    { loadAccount := Except.ok ⟨1⟩, signTx := fun t => Except.ok t,
      submit := fun _ => Except.ok ⟨"TX"⟩, now := 99 }
    ⟨"5555555555554444", "123", "12", "30", "ALICE", "visa"⟩ ⟨1⟩ ⟨"TX"⟩ "GPUB"
    rfl rfl (by decide) (Or.inr rfl) (by decide) (fun _ => rfl) rfl (fun _ => rfl)
  dsimp only at h
  rw [h]
  exact ⟨rfl, rfl⟩
